import Mathlib

/-!
Shallow embedding of `stake-update-go` (src/main.go), a polling
reconciliation agent: it compares a validator's stake nonce on Ethereum
(via a subgraph) with the nonce on Heimdall (via REST) and, when Ethereum
is ahead, submits a correcting `heimdallcli` transaction.

External I/O (HTTP responses, chain RPC, the subprocess) is abstracted as
`Except`-valued inputs; every decision the Go code makes on those inputs
is translated directly.
-/

namespace StakeUpdateGo

/-- Error kinds for the fallible external operations (network failure,
JSON unmarshal failure, string-to-integer parse failure, chain RPC
failure, subprocess failure). -/
inductive Err where
  | network
  | decode
  | parse
  | rpc
  | subprocess
deriving DecidableEq

/-- Embedded `ValidatorResponse.Result` struct (main.go lines 23-34). -/
structure ValidatorResult where
  id : Int
  startEpoch : Int
  endEpoch : Int
  nonce : Int
  power : Int
  pubKey : String
  signer : String
  lastUpdated : String
  jailed : Bool
  accum : Int
deriving DecidableEq

/-- Embedded `ValidatorResponse` struct (main.go lines 21-36): the decoded
Heimdall REST response. -/
structure ValidatorResponse where
  height : String
  result : ValidatorResult
  error : String
deriving DecidableEq

/-- Embedded element type of `StakeUpdateResponse.Data.StakeUpdates`
(main.go lines 40-48): one decoded stake-update record; all fields are
textual, as in the JSON. -/
structure StakeUpdate where
  id : String
  validatorId : String
  totalStaked : String
  block : String
  nonce : String
  transactionHash : String
  logIndex : String
deriving DecidableEq

/-- Embedded `StakeUpdateResponse` struct (main.go lines 38-50): the
decoded subgraph response envelope, carrying `data.stakeUpdates`. -/
structure StakeUpdateResponse where
  stakeUpdates : List StakeUpdate
deriving DecidableEq

/-- Value of a decimal digit character, `none` on a non-digit. -/
def digitVal? (c : Char) : Option Nat :=
  if c.isDigit then some (c.toNat - 48) else none

/-- Base-10 value of a character list; `none` if any character is not a
digit. An empty list yields `some 0`; callers guard non-emptiness. -/
def natOfDigits (cs : List Char) : Option Nat :=
  cs.foldl
    (fun acc c =>
      match acc, digitVal? c with
      | some a, some d => some (a * 10 + d)
      | _, _ => none)
    (some 0)

/-- Shared digit-run parser: an optional-sign body of a decimal literal.
Fails on an empty digit run or any non-digit character. -/
def signedDigits? (neg : Bool) (cs : List Char) : Option Int :=
  if cs.isEmpty then none
  else (natOfDigits cs).map (fun n => if neg then -(n : Int) else (n : Int))

/-- Embedding of Go `strconv.Atoi` as used at main.go lines 75 and 194:
optional `+`/`-` sign, then a non-empty run of decimal digits; any other
shape is a parse error, and a value outside the 64-bit `int` range is an
error as well (Go returns `ErrRange`, which both call sites treat as
failure). -/
def atoi (s : String) : Except Err Int :=
  let finish : Bool → List Char → Except Err Int := fun neg cs =>
    match signedDigits? neg cs with
    | none => .error .parse
    | some v =>
        if -(2 ^ 63) ≤ v ∧ v ≤ 2 ^ 63 - 1 then .ok v else .error .parse
  match s.toList with
  | '+' :: rest => finish false rest
  | '-' :: rest => finish true rest
  | cs => finish false cs

/-- Embedding of `big.NewInt(0).SetString(blockNumber, 10)` at main.go
line 203: optional sign then a non-empty run of decimal digits, no size
limit; `none` mirrors `ok == false`. -/
def bigSetString10 (s : String) : Option Int :=
  match s.toList with
  | '+' :: rest => signedDigits? false rest
  | '-' :: rest => signedDigits? true rest
  | cs => signedDigits? false cs

/-- Embedding of `getHeimdallValidatorNonce` (main.go lines 165-175) on a
successfully decoded response: a non-empty `error` field maps to the
sentinel `-1`; otherwise the `result.nonce` field is returned. -/
def getHeimdallValidatorNonce (resp : ValidatorResponse) : Int :=
  if resp.error ≠ "" then -1 else resp.result.nonce

/-- Embedding of `getEthereumValidatorNonce` (main.go lines 184-199) on a
successfully decoded response: an empty `stakeUpdates` list yields nonce
`0` with no error; otherwise element 0's textual `nonce` is parsed with
`strconv.Atoi`, propagating its error. -/
def getEthereumValidatorNonce (resp : StakeUpdateResponse) : Except Err Int :=
  match resp.stakeUpdates with
  | [] => .ok 0
  | su :: _ => atoi su.nonce

/-- Embedding of `getEthereumValidatorNonce` including its fallible query
and unmarshal steps (main.go lines 178-188): a network or decode error
propagates; a decoded response is handled as above. -/
def getEthereumValidatorNonceFull (fetched : Except Err StakeUpdateResponse) :
    Except Err Int :=
  match fetched with
  | .error e => .error e
  | .ok resp => getEthereumValidatorNonce resp

/-- Embedding of `getBlockTime` (main.go lines 202-213): the block number
string is parsed as a base-10 big integer (error on failure), then the
chain client resolves the block's timestamp (abstracted as `blockOf`, an
`Except`-valued lookup; times in nanoseconds). -/
def getBlockTime (blockOf : Int → Except Err Int) (blockNumber : String) :
    Except Err Int :=
  match bigSetString10 blockNumber with
  | none => .error .parse
  | some n => blockOf n

/-- Ten minutes in nanoseconds, the Go `time.Minute * 10` threshold at
main.go line 137. -/
def tenMinutes : Int := 10 * 60 * 1000000000

/-- Argument list of the `heimdallcli` invocation at main.go line 143:
each record field is passed verbatim, in a fixed position. -/
def submitterArgs (su : StakeUpdate) (chainId : String) : List String :=
  ["heimdallcli", "tx", "staking", "stake-update",
   "--block-number", su.block,
   "--id", su.validatorId,
   "--log-index", su.logIndex,
   "--nonce", su.nonce,
   "--staked-amount", su.totalStaked,
   "--tx-hash", su.transactionHash,
   "--chain-id", chainId]

/-- External inputs of one loop iteration: the decoded-or-failed Heimdall
REST response (main.go lines 152-169), the decoded-or-failed subgraph
record response (lines 116-127), the chain's block-time lookup (line 207),
the current wall clock in nanoseconds, the subprocess result as a function
of its argument list (line 143), and the configured chain id. -/
structure Env where
  heimdallResp : Except Err ValidatorResponse
  recordResp : Except Err StakeUpdateResponse
  blockOf : Int → Except Err Int
  now : Int
  submit : List String → Except Err Unit
  chainId : String

/-- Possible results of one `processStakeUpdate` call: an error returned
to the caller, a Go runtime panic (the unchecked index at line 129), a
staleness skip returning `nil` (lines 137-140), or a successful
submission carrying the argument list handed to the subprocess. -/
inductive ProcResult where
  | errored (e : Err)
  | panicked
  | skipped
  | submitted (args : List String)
deriving DecidableEq

/-- Embedding of `processStakeUpdate` (main.go lines 114-150). The query
and unmarshal of lines 116-127 are `env.recordResp`; line 129 indexes
element 0 of `stakeUpdates` with no length check, so an empty list is a
runtime panic; then the block time is resolved, the ten-minute staleness
gate is applied (`time.Since(blockTime) < time.Minute*10` skips with a
`nil` return), and otherwise `heimdallcli` is invoked with the record's
fields. The `nonce` parameter only shapes the subgraph query text (line
116), which `env.recordResp` abstracts. -/
def processStakeUpdate (env : Env) (nonce : Int) : ProcResult :=
  match env.recordResp with
  | .error e => .errored e
  | .ok resp =>
    match resp.stakeUpdates with
    | [] => .panicked
    | su :: _ =>
      match getBlockTime env.blockOf su.block with
      | .error e => .errored e
      | .ok t =>
        if env.now - t < tenMinutes then .skipped
        else
          match env.submit (submitterArgs su env.chainId) with
          | .error e => .errored e
          | .ok _ => .submitted (submitterArgs su env.chainId)

/-- Action decided by the nonce comparison of main.go lines 101-108:
either nothing, or one correction attempt at a specific nonce. -/
inductive Action where
  | NoOp
  | CorrectWithNonce (n : Int)
deriving DecidableEq

/-- Embedding of the decision at main.go lines 101-102: when
`ethereumNonce > heimdallNonce`, `processStakeUpdate` is invoked with
`heimdallNonce + 1`; otherwise nothing is done. -/
def loopDecide (sourceNonce destNonce : Int) : Action :=
  if sourceNonce > destNonce then .CorrectWithNonce (destNonce + 1)
  else .NoOp

/-- How one loop iteration ends: continue to the next iteration after
sleeping the given number of seconds (1 after an error, main.go lines
95 and 105; 18 normally, line 109), a runtime panic propagating out of
`processStakeUpdate`, or process termination. The loop body of main.go
lines 91-110 has no `return` or `log.Fatal`, so no path produces
`terminated`; the constructor exists so that absence is a statement. -/
inductive IterOutcome where
  | continueAfter (seconds : Nat)
  | panicked
  | terminated
deriving DecidableEq

/-- Result of one loop iteration: its outcome, plus the nonce passed to
`processStakeUpdate` when it was invoked (`none` when it was not). -/
structure IterResult where
  outcome : IterOutcome
  attempted : Option Int
deriving DecidableEq

/-- Embedding of one iteration of the poll loop (main.go lines 91-110):
fetch the Heimdall nonce (error: log, sleep 1s, continue); compare with
the fixed Ethereum nonce; when ahead, run `processStakeUpdate` at
`heimdallNonce + 1` (error: log, sleep 1s, continue); then sleep 18s. -/
def loopIter (env : Env) (ethereumNonce : Int) : IterResult :=
  match env.heimdallResp with
  | .error _ => ⟨.continueAfter 1, none⟩
  | .ok resp =>
    match loopDecide ethereumNonce (getHeimdallValidatorNonce resp) with
    | .NoOp => ⟨.continueAfter 18, none⟩
    | .CorrectWithNonce n =>
      match processStakeUpdate env n with
      | .errored _ => ⟨.continueAfter 1, some n⟩
      | .panicked => ⟨.panicked, some n⟩
      | .skipped => ⟨.continueAfter 18, some n⟩
      | .submitted _ => ⟨.continueAfter 18, some n⟩

/-- Source nonce carried into the next iteration: the loop body (main.go
lines 91-110) contains no assignment to `ethereumNonce`, so the value is
carried over unchanged. -/
def nextSourceNonce (env : Env) (ethereumNonce : Int) : Int :=
  ethereumNonce

/-- Source nonce in scope at the start of iteration `n`, given the
per-iteration environments and the value resolved at startup. -/
def sourceNonceAt (envs : Nat → Env) (init : Int) : Nat → Int
  | 0 => init
  | n + 1 => nextSourceNonce (envs n) (sourceNonceAt envs init n)

/-- Result of iteration `n` of the poll loop. -/
def iterTrace (envs : Nat → Env) (init : Int) (n : Nat) : IterResult :=
  loopIter (envs n) (sourceNonceAt envs init n)

/-- How `main` can leave its startup phase (main.go lines 73-89):
`log.Fatal` (process exit with status 1), a plain `return` before the
loop (normal exit, status 0), or entry into the poll loop with the
resolved validator id and Ethereum nonce. -/
inductive StartupOutcome where
  | fatalExit
  | returnBeforeLoop
  | entersLoop (validatorId : Int) (ethereumNonce : Int)
deriving DecidableEq

/-- Embedding of `main`'s startup phase (main.go lines 73-89): the
argument is parsed with `strconv.Atoi` (`log.Fatal` on failure), the
Ethereum client is dialed (`log.Fatal` on failure), and the Ethereum
nonce is resolved once; an error there is printed and `main` returns
before the loop; otherwise the loop is entered. -/
def mainStartup (arg : String) (dialResult : Except Err Unit)
    (sourceFetch : Except Err StakeUpdateResponse) : StartupOutcome :=
  match atoi arg with
  | .error _ => .fatalExit
  | .ok validatorId =>
    match dialResult with
    | .error _ => .fatalExit
    | .ok _ =>
      match getEthereumValidatorNonceFull sourceFetch with
      | .error _ => .returnBeforeLoop
      | .ok n => .entersLoop validatorId n

/-- Sample decoded Heimdall response with a given error field and nonce,
used to evaluate the embedding on concrete inputs. -/
def vresp (err : String) (n : Int) : ValidatorResponse :=
  { height := "1",
    result := { id := 1, startEpoch := 0, endEpoch := 0, nonce := n, power := 1,
                pubKey := "pk", signer := "sg", lastUpdated := "now",
                jailed := false, accum := 0 },
    error := err }

/-- Sample decoded stake-update record with a given textual nonce. -/
def srec (nonceText : String) : StakeUpdate :=
  { id := "rec", validatorId := "7", totalStaked := "1000", block := "12345",
    nonce := nonceText, transactionHash := "0xabc", logIndex := "2" }

/-- Environment builder for concrete evaluations: constant block-time
lookup and constant subprocess result. -/
def mkEnv (h : Except Err ValidatorResponse) (r : Except Err StakeUpdateResponse)
    (bt : Except Err Int) (now : Int) (sub : Except Err Unit) : Env :=
  { heimdallResp := h, recordResp := r, blockOf := fun _ => bt,
    now := now, submit := fun _ => sub, chainId := "heimdall-80001" }

/-- Claim C1: for every pair of source and destination nonce, a correction
is attempted if and only if the source nonce is strictly greater than the
destination nonce, and the correction always targets exactly
destinationNonce + 1, regardless of the size of the gap; when
sourceNonce ≤ destinationNonce nothing is done. Stated both on the
decision function of main.go lines 101-102 and on the loop iteration. -/
theorem nonce_decision (s d : Int) :
    (s ≤ d → loopDecide s d = Action.NoOp) ∧
    (d < s → loopDecide s d = Action.CorrectWithNonce (d + 1)) ∧
    (∀ n : Int, loopDecide s d = Action.CorrectWithNonce n → d < s ∧ n = d + 1) ∧
    (∀ env : Env, ∀ resp : ValidatorResponse,
      env.heimdallResp = Except.ok resp → getHeimdallValidatorNonce resp = d →
        (((loopIter env s).attempted).isSome ↔ d < s) ∧
        (∀ n : Int, (loopIter env s).attempted = some n → n = d + 1)) := by
  refine ⟨?_, ?_, ?_, ?_⟩
  · intro h
    simp [loopDecide, not_lt.mpr h]
  · intro h
    simp [loopDecide, h]
  · intro n hn
    by_cases h : d < s
    · simp [loopDecide, h] at hn
      exact ⟨h, hn.symm⟩
    · simp [loopDecide, h] at hn
  · intro env resp hresp hd
    by_cases h : d < s
    · have hdec : loopDecide s (getHeimdallValidatorNonce resp) =
          Action.CorrectWithNonce (d + 1) := by
        rw [hd]; simp [loopDecide, h]
      constructor
      · cases hp : processStakeUpdate env (d + 1) <;>
          simp [loopIter, hresp, hdec, hp, h]
      · intro n hn
        cases hp : processStakeUpdate env (d + 1) <;>
          simp [loopIter, hresp, hdec, hp] at hn <;> omega
    · have hdec : loopDecide s (getHeimdallValidatorNonce resp) = Action.NoOp := by
        rw [hd]; simp [loopDecide, h]
      constructor
      · simp [loopIter, hresp, hdec, h]
      · intro n hn
        simp [loopIter, hresp, hdec] at hn

/-- Witness for C1: a gap of two corrects at 4 = 3 + 1; equal nonces do
nothing; on a full iteration with destination nonce 3 and source 5 the
invoked nonce is 4. -/
theorem nonce_decision_witness :
    loopDecide 5 3 = Action.CorrectWithNonce 4 ∧
    loopDecide 3 3 = Action.NoOp ∧
    ((loopIter (mkEnv (Except.ok (vresp "" 3)) (Except.error Err.network)
        (Except.ok 0) 0 (Except.ok ())) 5).attempted).isSome :=
  ⟨(nonce_decision 5 3).2.1 (by decide),
   (nonce_decision 3 3).1 (by decide),
   ((((nonce_decision 5 3).2.2.2 (mkEnv (Except.ok (vresp "" 3))
        (Except.error Err.network) (Except.ok 0) 0 (Except.ok ()))
        (vresp "" 3) rfl rfl).1).mpr (by decide))⟩

/-- Claim C9: the source-nonce fetch returns 0 with no error when the
decoded stakeUpdates list is empty, and otherwise returns element 0's
textual nonce parsed base-10 via strconv.Atoi, erring exactly when that
parse errs (main.go lines 190-199). -/
theorem source_nonce_fetch (resp : StakeUpdateResponse) :
    (resp.stakeUpdates = [] → getEthereumValidatorNonce resp = Except.ok 0) ∧
    (∀ su rest, resp.stakeUpdates = su :: rest →
      (∀ n : Int, atoi su.nonce = Except.ok n →
        getEthereumValidatorNonce resp = Except.ok n) ∧
      (∀ e : Err, atoi su.nonce = Except.error e →
        getEthereumValidatorNonce resp = Except.error e)) := by
  constructor
  · intro h
    simp [getEthereumValidatorNonce, h]
  · intro su rest h
    constructor
    · intro n hn
      simp [getEthereumValidatorNonce, h, hn]
    · intro e he
      simp [getEthereumValidatorNonce, h, he]

/-- Witness for C9: an empty result set yields nonce 0; a record with
textual nonce "17" yields 17; a non-numeric nonce errs. -/
theorem source_nonce_fetch_witness :
    getEthereumValidatorNonce ⟨[]⟩ = Except.ok 0 ∧
    getEthereumValidatorNonce ⟨[srec "17"]⟩ = Except.ok 17 ∧
    getEthereumValidatorNonce ⟨[srec "x7"]⟩ = Except.error Err.parse :=
  ⟨(source_nonce_fetch ⟨[]⟩).1 rfl,
   ((source_nonce_fetch ⟨[srec "17"]⟩).2 (srec "17") [] rfl).1 17 rfl,
   ((source_nonce_fetch ⟨[srec "x7"]⟩).2 (srec "x7") [] rfl).2 Err.parse rfl⟩

/-- Counterexample to C6 as stated: a decoded response with an EMPTY
error field whose numeric nonce field is -1 makes the fetch return -1,
so "returns -1 only if the error field is non-empty" fails; the return
value is not independent of the numeric nonce field. -/
theorem heimdall_sentinel_counterexample :
    (vresp "" (-1)).error = "" ∧
    getHeimdallValidatorNonce (vresp "" (-1)) = -1 := by
  constructor
  · rfl
  · rfl

/-- Claim C6 amended: the fetch returns -1 whenever the error field is
non-empty, independent of the nonce field; with an empty error field it
returns the nonce field verbatim; hence the claimed equivalence
"returns -1 iff error non-empty" holds exactly for responses whose
numeric nonce field is itself not -1. -/
theorem heimdall_sentinel (resp : ValidatorResponse) :
    (resp.error ≠ "" → getHeimdallValidatorNonce resp = -1) ∧
    (resp.error = "" → getHeimdallValidatorNonce resp = resp.result.nonce) ∧
    (resp.result.nonce ≠ -1 →
      (getHeimdallValidatorNonce resp = -1 ↔ resp.error ≠ "")) := by
  refine ⟨?_, ?_, ?_⟩
  · intro h
    simp [getHeimdallValidatorNonce, h]
  · intro h
    simp [getHeimdallValidatorNonce, h]
  · intro hn
    constructor
    · intro hv he
      simp [getHeimdallValidatorNonce, he] at hv
      exact hn hv
    · intro he
      simp [getHeimdallValidatorNonce, he]

/-- Witness for C6 (amended): a non-empty error maps to -1 whatever the
nonce field holds; an empty error returns the nonce field; with nonce 7
the equivalence holds. -/
theorem heimdall_sentinel_witness :
    getHeimdallValidatorNonce (vresp "boom" 7) = -1 ∧
    getHeimdallValidatorNonce (vresp "" 7) = 7 ∧
    (getHeimdallValidatorNonce (vresp "" 7) = -1 ↔ (vresp "" 7).error ≠ "") :=
  ⟨(heimdall_sentinel (vresp "boom" 7)).1 (by decide),
   (heimdall_sentinel (vresp "" 7)).2.1 rfl,
   (heimdall_sentinel (vresp "" 7)).2.2 (by decide)⟩

/-- Counterexample to C3 as stated: with the validator unknown on
Heimdall (non-empty error field, sentinel -1), the comparison IS
satisfied at source nonce 0 and a correction targeting nonce 0 is
attempted, contradicting "the comparison is never satisfied for any
source nonce". -/
theorem unknown_validator_counterexample :
    getHeimdallValidatorNonce (vresp "validator not found" 0) = -1 ∧
    loopDecide 0 (getHeimdallValidatorNonce (vresp "validator not found" 0)) =
      Action.CorrectWithNonce 0 := by
  constructor
  · rfl
  · rfl

/-- Claim C3 amended: while the validator is unknown on the destination
(non-empty error field, sentinel -1), the comparison is satisfied by
EVERY source nonce ≥ 0, and the attempted correction targets nonce 0;
only a negative source nonce leaves the comparison unsatisfied. -/
theorem unknown_validator_decision (s : Int) (resp : ValidatorResponse)
    (herr : resp.error ≠ "") :
    (0 ≤ s → loopDecide s (getHeimdallValidatorNonce resp) =
      Action.CorrectWithNonce 0) ∧
    (s < 0 → loopDecide s (getHeimdallValidatorNonce resp) = Action.NoOp) := by
  have hsent : getHeimdallValidatorNonce resp = -1 := by
    simp [getHeimdallValidatorNonce, herr]
  rw [hsent]
  constructor
  · intro h
    have : (-1 : Int) < s := by omega
    simp [loopDecide, this]
  · intro h
    have : ¬ ((-1 : Int) < s) := by omega
    simp [loopDecide, this]

/-- Witness for C3 (amended): with a concrete unknown-validator response,
source nonce 0 triggers a correction targeting nonce 0, while source
nonce -2 does not. -/
theorem unknown_validator_decision_witness :
    loopDecide 0 (getHeimdallValidatorNonce (vresp "err" 9)) =
      Action.CorrectWithNonce 0 ∧
    loopDecide (-2) (getHeimdallValidatorNonce (vresp "err" 9)) = Action.NoOp :=
  ⟨(unknown_validator_decision 0 (vresp "err" 9) (by decide)).1 (by decide),
   (unknown_validator_decision (-2) (vresp "err" 9) (by decide)).2 (by decide)⟩

/-- Claim C5: once the record and its block time are resolved, submission
is skipped exactly when the elapsed time since the block timestamp is
strictly less than ten minutes; at exactly ten minutes the gate passes;
and a skip is not an error: the iteration ends with the normal 18-second
sleep (main.go lines 137-140 and 109). -/
theorem staleness_gate (env : Env) (n : Int) (resp : StakeUpdateResponse)
    (su : StakeUpdate) (rest : List StakeUpdate) (t : Int)
    (hr : env.recordResp = Except.ok resp)
    (hs : resp.stakeUpdates = su :: rest)
    (ht : getBlockTime env.blockOf su.block = Except.ok t) :
    (processStakeUpdate env n = ProcResult.skipped ↔ env.now - t < tenMinutes) ∧
    (env.now - t = tenMinutes → processStakeUpdate env n ≠ ProcResult.skipped) ∧
    (env.now - t < tenMinutes → ∀ s : Int,
      (loopIter env s).attempted ≠ none →
        (loopIter env s).outcome = IterOutcome.continueAfter 18) := by
  have hiff : processStakeUpdate env n = ProcResult.skipped ↔
      env.now - t < tenMinutes := by
    by_cases hlt : env.now - t < tenMinutes
    · simp [processStakeUpdate, hr, hs, ht, hlt]
    · cases hsub : env.submit (submitterArgs su env.chainId) <;>
        simp [processStakeUpdate, hr, hs, ht, hlt, hsub]
  refine ⟨hiff, ?_, ?_⟩
  · intro heq hsk
    have := hiff.mp hsk
    omega
  · intro hlt s hatt
    have hproc : ∀ m : Int, processStakeUpdate env m = ProcResult.skipped := by
      intro m
      simp [processStakeUpdate, hr, hs, ht, hlt]
    cases hh : env.heimdallResp with
    | error e =>
      simp [loopIter, hh] at hatt
    | ok r =>
      cases hdec : loopDecide s (getHeimdallValidatorNonce r) with
      | NoOp =>
        simp [loopIter, hh, hdec] at hatt
      | CorrectWithNonce m =>
        simp [loopIter, hh, hdec, hproc m]

/-- Witness for C5: with the block 1 nanosecond old, the update is
skipped and the iteration ends with the 18-second sleep; at exactly ten
minutes the gate passes. -/
theorem staleness_gate_witness :
    processStakeUpdate (mkEnv (Except.ok (vresp "" 3))
      (Except.ok ⟨[srec "4"]⟩) (Except.ok 0) 1 (Except.ok ())) 4 =
      ProcResult.skipped ∧
    (loopIter (mkEnv (Except.ok (vresp "" 3)) (Except.ok ⟨[srec "4"]⟩)
      (Except.ok 0) 1 (Except.ok ())) 5).outcome =
      IterOutcome.continueAfter 18 ∧
    processStakeUpdate (mkEnv (Except.ok (vresp "" 3))
      (Except.ok ⟨[srec "4"]⟩) (Except.ok 0) tenMinutes (Except.ok ())) 4 ≠
      ProcResult.skipped :=
  ⟨(staleness_gate (mkEnv (Except.ok (vresp "" 3)) (Except.ok ⟨[srec "4"]⟩)
      (Except.ok 0) 1 (Except.ok ())) 4 ⟨[srec "4"]⟩ (srec "4") [] 0
      rfl rfl rfl).1.mpr (by decide),
   (staleness_gate (mkEnv (Except.ok (vresp "" 3)) (Except.ok ⟨[srec "4"]⟩)
      (Except.ok 0) 1 (Except.ok ())) 4 ⟨[srec "4"]⟩ (srec "4") [] 0
      rfl rfl rfl).2.2 (by decide) 5 (by decide),
   (staleness_gate (mkEnv (Except.ok (vresp "" 3)) (Except.ok ⟨[srec "4"]⟩)
      (Except.ok 0) tenMinutes (Except.ok ())) 4 ⟨[srec "4"]⟩ (srec "4") [] 0
      rfl rfl rfl).2.1 (by decide)⟩

/-- Claim C4: inside a loop iteration, a destination-nonce fetch error
ends the iteration with the 1-second sleep and no correction attempt; any
error returned by processStakeUpdate (record fetch, decode, block-time
resolve, or subprocess failure) ends the iteration with the 1-second
sleep; and no iteration ever terminates the process (main.go lines
91-110 contain no return or fatal call). -/
theorem iteration_error_containment (env : Env) (s : Int) :
    (∀ e : Err, env.heimdallResp = Except.error e →
      loopIter env s = ⟨IterOutcome.continueAfter 1, none⟩) ∧
    (∀ n : Int, (loopIter env s).attempted = some n →
      ∀ e : Err, processStakeUpdate env n = ProcResult.errored e →
        (loopIter env s).outcome = IterOutcome.continueAfter 1) ∧
    (loopIter env s).outcome ≠ IterOutcome.terminated := by
  refine ⟨?_, ?_, ?_⟩
  · intro e he
    simp [loopIter, he]
  · intro n hatt e hproc
    cases hh : env.heimdallResp with
    | error e0 =>
      simp [loopIter, hh] at hatt
    | ok r =>
      cases hdec : loopDecide s (getHeimdallValidatorNonce r) with
      | NoOp =>
        simp [loopIter, hh, hdec] at hatt
      | CorrectWithNonce m =>
        cases hp : processStakeUpdate env m with
        | errored e1 =>
          simp [loopIter, hh, hdec, hp]
        | panicked =>
          simp [loopIter, hh, hdec, hp] at hatt
          rw [← hatt] at hproc
          rw [hp] at hproc
          cases hproc
        | skipped =>
          simp [loopIter, hh, hdec, hp] at hatt
          rw [← hatt] at hproc
          rw [hp] at hproc
          cases hproc
        | submitted a =>
          simp [loopIter, hh, hdec, hp] at hatt
          rw [← hatt] at hproc
          rw [hp] at hproc
          cases hproc
  · cases hh : env.heimdallResp with
    | error e0 =>
      simp [loopIter, hh]
    | ok r =>
      cases hdec : loopDecide s (getHeimdallValidatorNonce r) with
      | NoOp =>
        simp [loopIter, hh, hdec]
      | CorrectWithNonce m =>
        cases hp : processStakeUpdate env m <;>
          simp [loopIter, hh, hdec, hp]

/-- Witness for C4: a REST fetch error yields the 1-second retry with no
attempt; a record decode error inside processStakeUpdate yields the
1-second retry on the iteration that invoked it. -/
theorem iteration_error_containment_witness :
    loopIter (mkEnv (Except.error Err.network) (Except.ok ⟨[]⟩)
      (Except.ok 0) 0 (Except.ok ())) 5 =
      ⟨IterOutcome.continueAfter 1, none⟩ ∧
    (loopIter (mkEnv (Except.ok (vresp "" 3)) (Except.error Err.decode)
      (Except.ok 0) 0 (Except.ok ())) 5).outcome =
      IterOutcome.continueAfter 1 :=
  ⟨(iteration_error_containment (mkEnv (Except.error Err.network)
      (Except.ok ⟨[]⟩) (Except.ok 0) 0 (Except.ok ())) 5).1 Err.network rfl,
   (iteration_error_containment (mkEnv (Except.ok (vresp "" 3))
      (Except.error Err.decode) (Except.ok 0) 0 (Except.ok ())) 5).2.1
      4 (by decide) Err.decode rfl⟩

/-- Claim C8: every textual field of the decoded record appears verbatim,
at its fixed position, in the argument list handed to heimdallcli, and a
successful submission passes exactly that list (main.go lines 129-143):
no transformation is applied between decoding and submission. -/
theorem submitter_args_verbatim (su : StakeUpdate) (c : String) :
    (submitterArgs su c).get? 5 = some su.block ∧
    (submitterArgs su c).get? 7 = some su.validatorId ∧
    (submitterArgs su c).get? 9 = some su.logIndex ∧
    (submitterArgs su c).get? 11 = some su.nonce ∧
    (submitterArgs su c).get? 13 = some su.totalStaked ∧
    (submitterArgs su c).get? 15 = some su.transactionHash ∧
    (submitterArgs su c).get? 17 = some c ∧
    (∀ env : Env, ∀ n t : Int, ∀ rest : List StakeUpdate,
      env.recordResp = Except.ok ⟨su :: rest⟩ →
      getBlockTime env.blockOf su.block = Except.ok t →
      tenMinutes ≤ env.now - t →
      env.submit (submitterArgs su env.chainId) = Except.ok () →
      processStakeUpdate env n =
        ProcResult.submitted (submitterArgs su env.chainId)) := by
  refine ⟨rfl, rfl, rfl, rfl, rfl, rfl, rfl, ?_⟩
  intro env n t rest hr ht hage hsub
  have hlt : ¬ (env.now - t < tenMinutes) := by omega
  simp [processStakeUpdate, hr, ht, hlt, hsub]

/-- Witness for C8: a concrete record whose block "12345" and nonce "4"
appear verbatim in the invoked argument list, and the submission carries
exactly that list. -/
theorem submitter_args_verbatim_witness :
    (submitterArgs (srec "4") "heimdall-80001").get? 5 = some "12345" ∧
    (submitterArgs (srec "4") "heimdall-80001").get? 11 = some "4" ∧
    processStakeUpdate (mkEnv (Except.ok (vresp "" 3))
      (Except.ok ⟨[srec "4"]⟩) (Except.ok 0) tenMinutes (Except.ok ())) 4 =
      ProcResult.submitted (submitterArgs (srec "4")
        (mkEnv (Except.ok (vresp "" 3)) (Except.ok ⟨[srec "4"]⟩)
          (Except.ok 0) tenMinutes (Except.ok ())).chainId) :=
  ⟨(submitter_args_verbatim (srec "4") "heimdall-80001").1,
   (submitter_args_verbatim (srec "4") "heimdall-80001").2.2.2.1,
   (submitter_args_verbatim (srec "4")
      (mkEnv (Except.ok (vresp "" 3)) (Except.ok ⟨[srec "4"]⟩)
        (Except.ok 0) tenMinutes (Except.ok ())).chainId).2.2.2.2.2.2.2
      (mkEnv (Except.ok (vresp "" 3)) (Except.ok ⟨[srec "4"]⟩)
        (Except.ok 0) tenMinutes (Except.ok ())) 4 0 [] rfl rfl (by decide) rfl⟩

/-- Claim C2 is violated by the code: line 129 indexes element 0 of the
decoded stakeUpdates list with no length check. On a decoded response
with ZERO elements the lookup does not fail with an error: it is a Go
index-out-of-range panic; and on a response with TWO elements it
silently proceeds with element 0 and submits. -/
theorem record_lookup_unchecked :
    processStakeUpdate (mkEnv (Except.ok (vresp "" 3)) (Except.ok ⟨[]⟩)
      (Except.ok 0) tenMinutes (Except.ok ())) 4 = ProcResult.panicked ∧
    processStakeUpdate (mkEnv (Except.ok (vresp "" 3))
      (Except.ok ⟨[srec "4", srec "5"]⟩) (Except.ok 0) tenMinutes
      (Except.ok ())) 4 =
      ProcResult.submitted (submitterArgs (srec "4") "heimdall-80001") := by
  constructor
  · rfl
  · rfl

/-- Claim C7: the source nonce is resolved once at startup and never
modified by any loop iteration: after any number of iterations the value
carried is still the initial one, every iteration's comparison uses that
initial value, and the value entering the loop is exactly the one the
startup fetch produced (main.go lines 85-89 and 91-110). -/
theorem source_nonce_fixed (envs : Nat → Env) (init : Int) (n : Nat)
    (arg : String) (dial : Except Err Unit)
    (fetch : Except Err StakeUpdateResponse) (v e : Int) :
    sourceNonceAt envs init n = init ∧
    iterTrace envs init n = loopIter (envs n) init ∧
    (mainStartup arg dial fetch = StartupOutcome.entersLoop v e →
      getEthereumValidatorNonceFull fetch = Except.ok e) := by
  have hfix : ∀ m, sourceNonceAt envs init m = init := by
    intro m
    induction m with
    | zero => rfl
    | succ k ih => simp [sourceNonceAt, nextSourceNonce, ih]
  refine ⟨hfix n, by simp [iterTrace, hfix n], ?_⟩
  intro h
  cases ha : atoi arg with
  | error e0 =>
    simp [mainStartup, ha] at h
  | ok vid =>
    cases dial with
    | error e1 =>
      simp [mainStartup, ha] at h
    | ok u =>
      cases hf : getEthereumValidatorNonceFull fetch with
      | error e2 =>
        simp [mainStartup, ha, hf] at h
      | ok m =>
        simp [mainStartup, ha, hf] at h
        exact congrArg Except.ok h.2

/-- Witness for C7: after three iterations over a constant environment
the carried source nonce is still 5, and a startup that enters the loop
with nonce 5 got that 5 from the startup fetch. -/
theorem source_nonce_fixed_witness :
    sourceNonceAt (fun _ => mkEnv (Except.error Err.network)
      (Except.ok ⟨[]⟩) (Except.ok 0) 0 (Except.ok ())) 5 3 = 5 ∧
    getEthereumValidatorNonceFull (Except.ok ⟨[srec "5"]⟩) = Except.ok 5 :=
  ⟨(source_nonce_fixed (fun _ => mkEnv (Except.error Err.network)
      (Except.ok ⟨[]⟩) (Except.ok 0) 0 (Except.ok ())) 5 3 "7"
      (Except.ok ()) (Except.ok ⟨[srec "5"]⟩) 7 5).1,
   (source_nonce_fixed (fun _ => mkEnv (Except.error Err.network)
      (Except.ok ⟨[]⟩) (Except.ok 0) 0 (Except.ok ())) 5 3 "7"
      (Except.ok ()) (Except.ok ⟨[srec "5"]⟩) 7 5).2.2 rfl⟩

/-- Claim C10: when the argument parses and the client dials but the
one-time source-nonce fetch errs, main prints the error and returns
before the loop: a plain return (exit status 0), not a fatal call, and
the poll loop is never entered (main.go lines 85-89). -/
theorem startup_fetch_error_returns (arg : String) (v : Int)
    (fetch : Except Err StakeUpdateResponse) (e : Err)
    (ha : atoi arg = Except.ok v)
    (hf : getEthereumValidatorNonceFull fetch = Except.error e) :
    mainStartup arg (Except.ok ()) fetch = StartupOutcome.returnBeforeLoop ∧
    mainStartup arg (Except.ok ()) fetch ≠ StartupOutcome.fatalExit ∧
    (∀ v' n : Int, mainStartup arg (Except.ok ()) fetch ≠
      StartupOutcome.entersLoop v' n) := by
  have hm : mainStartup arg (Except.ok ()) fetch =
      StartupOutcome.returnBeforeLoop := by
    simp [mainStartup, ha, hf]
  refine ⟨hm, ?_, ?_⟩
  · rw [hm]
    intro hc
    cases hc
  · intro v' n
    rw [hm]
    intro hc
    cases hc

/-- Witness for C10: with argument "7" and a network error on the source
fetch, main returns before the loop. -/
theorem startup_fetch_error_returns_witness :
    mainStartup "7" (Except.ok ()) (Except.error Err.network) =
      StartupOutcome.returnBeforeLoop :=
  (startup_fetch_error_returns "7" 7 (Except.error Err.network)
    Err.network rfl rfl).1

end StakeUpdateGo
